import Mathlib

/-!
Shallow embedding of `src/main.py` of bgpkit/wayback-rpki-api: the
`/lookup` HTTP handler (`lookup`) and the interval-normalizing helper
(`range_to_array`), together with theorems settling the frozen claims.

Strings that the Python code manipulates character-by-character (the raw
interval tokens and the date strings inside them) are embedded as
`List Char`; request parameters and URLs stay `String`.  Python exceptions
that the handler does not catch (`ValueError` from unpacking a split of
the wrong arity or from `strptime`, `IndexError` from indexing an empty
string) are embedded as the error side of `Except`.
-/

set_option autoImplicit false

deriving instance DecidableEq for Except

namespace RoasApi

/-- Uncaught Python exceptions that can escape `range_to_array` (and hence
the `lookup` handler, which does not guard the call). -/
inductive PyError where
  | valueError
  | indexError
deriving DecidableEq, Repr

/-- Characters stripped by the source's `lstrip("[(")`. -/
def isOpenMark (c : Char) : Bool := c == '[' || c == '('

/-- Characters stripped by the source's `rstrip("])")`. -/
def isCloseMark (c : Char) : Bool := c == ']' || c == ')'

/-- Python's `str.split(",")` on a character list: `"".split(",") == [""]`,
and every comma separates. -/
def splitOnComma : List Char → List (List Char)
  | [] => [[]]
  | c :: rest =>
    if c = ',' then [] :: splitOnComma rest
    else
      match splitOnComma rest with
      | [] => [[c]]
      | h :: t => (c :: h) :: t

/-- Numeric value of a decimal digit character. -/
def digitVal (c : Char) : Nat := c.toNat - 48

/-- Model of `datetime.datetime.strptime(s, "%Y-%M-%d")` on canonical
zero-padded ten-character date strings.  The directive `%M` in the source
is the MINUTE directive (the month directive would be `%m`), so the string
`YYYY-MM-DD` parses to year `YYYY`, minute `MM`, day `DD`, with the month
defaulting to January.  Returns `(year, minute, day)`; `none` models the
`ValueError` that `strptime` raises when the minute exceeds 59 or the day
is outside January's 1..31. -/
def strptime_Y_Min_d (l : List Char) : Option (Nat × Nat × Nat) :=
  match l with
  | [y1, y2, y3, y4, s1, n1, n2, s2, d1, d2] =>
    if y1.isDigit && y2.isDigit && y3.isDigit && y4.isDigit && s1 == '-' &&
       n1.isDigit && n2.isDigit && s2 == '-' && d1.isDigit && d2.isDigit then
      let y := 1000 * digitVal y1 + 100 * digitVal y2 + 10 * digitVal y3 + digitVal y4
      let mins := 10 * digitVal n1 + digitVal n2
      let d := 10 * digitVal d1 + digitVal d2
      if 1 ≤ y ∧ mins ≤ 59 ∧ 1 ≤ d ∧ d ≤ 31 then some (y, mins, d) else none
    else none
  | _ => none

/-- Zero-pad a number below 100 to two characters, as `%M` and `%d` do. -/
def pad2 (n : Nat) : List Char := if n < 10 then '0' :: (toString n).toList else (toString n).toList

/-- Zero-pad a year to four characters, as `%Y` does. -/
def pad4 (n : Nat) : List Char :=
  List.replicate (4 - (toString n).length) '0' ++ (toString n).toList

/-- Model of `.strftime("%Y-%M-%d")`: prints the year, the MINUTE and the
day of the stored datetime. -/
def strftime_Y_Min_d (y mins d : Nat) : List Char :=
  pad4 y ++ '-' :: pad2 mins ++ '-' :: pad2 d

/-- `strptime(start, "%Y-%M-%d") + timedelta(days=1)`, then `strftime`.
The parsed datetime always sits in January, so adding one day gives day
`d+1` of January (same year) when `d < 31`, and February 1st (same year)
when `d = 31`; the minute — which carries the original month digits — is
untouched and is what `%M` prints back. -/
def shiftStartForward (l : List Char) : Except PyError (List Char) :=
  match strptime_Y_Min_d l with
  | none => .error .valueError
  | some (y, mins, d) =>
    if d < 31 then .ok (strftime_Y_Min_d y mins (d + 1))
    else .ok (strftime_Y_Min_d y mins 1)

/-- `strptime(end, "%Y-%M-%d") - timedelta(days=1)`, then `strftime`.
Subtracting one day from day `d` of January gives day `d-1` (same year)
when `d > 1`, and December 31st of the previous year when `d = 1`. -/
def shiftEndBackward (l : List Char) : Except PyError (List Char) :=
  match strptime_Y_Min_d l with
  | none => .error .valueError
  | some (y, mins, d) =>
    if 1 < d then .ok (strftime_Y_Min_d y mins (d - 1))
    else .ok (strftime_Y_Min_d (y - 1) mins 31)

/-- Embedding of `range_to_array` (src/main.py lines 263-275).
 - `date_range[0] == '('` sets `start_exclusive`; `date_range[-1] == ')'`
   sets `end_exclusive` (indexing an empty string raises `IndexError`);
 - `.lstrip("[(").rstrip("])")` strips ALL leading open marks and ALL
   trailing close marks;
 - `.split(",")` must yield exactly two parts, else the tuple unpacking
   raises `ValueError`;
 - an exclusive endpoint is shifted by one day through the (buggy)
   `%Y-%M-%d` round-trip. -/
def range_to_array (date_range : List Char) : Except PyError (List (List Char)) :=
  if date_range.isEmpty then .error .indexError
  else
    let start_exclusive := date_range.head? == some '('
    let end_exclusive := date_range.getLast? == some ')'
    let core := ((date_range.dropWhile isOpenMark).reverse.dropWhile isCloseMark).reverse
    match splitOnComma core with
    | [s0, e0] => do
      let s1 ← if start_exclusive then shiftStartForward s0 else .ok s0
      let e1 ← if end_exclusive then shiftEndBackward e0 else .ok e0
      .ok [s1, e1]
    | _ => .error .valueError

/-- One raw row returned by the store's `query_history_2` RPC.  The field
`pfx` embeds the source's IP-prefix field, whose Python name is a reserved
word in Lean. -/
structure Row where
  tal : String
  pfx : String
  max_len : Int
  asn : Int
  date_ranges : List (List Char)
deriving DecidableEq, Repr

/-- Embedding of the pydantic `Entry` model: a row after its
`date_ranges` field has been replaced by the normalized arrays. -/
structure Entry where
  tal : String
  pfx : String
  max_len : Int
  asn : Int
  date_ranges : List (List (List Char))
deriving DecidableEq, Repr

/-- Embedding of the pydantic `Result` model: the response envelope. -/
structure Result where
  limit : Int
  count : Nat
  next_page_num : Option Int
  next_page : Option String
  error : Option String
  data : List Entry
deriving DecidableEq, Repr

/-- What `res.json()` can be at line 209: either a dict carrying a
`message` field (store failure) or a list of rows. -/
inductive StoreResponse where
  | failure (message : String)
  | rows (l : List Row)
deriving DecidableEq, Repr

/-- The store collaborator, abstracted as a function of the only
request-dependent argument that varies inside one handler run: the
`res_offset` value passed to the RPC (all filter parameters are fixed by
the request itself). -/
abbrev Store := Int → StoreResponse

/-- The query parameters of one `/lookup` request, with the source's
defaults `prefix=""`, `asn=-1`, `tal=""`, `date=""`, `max_len=-1`,
`limit=100`, `page=1`.  `pretty` only selects indented serialization of
the same envelope and is not modelled. -/
structure LookupParams where
  pfx : String
  asn : Int
  tal : String
  date : String
  max_len : Int
  limit : Int
  page : Int
deriving DecidableEq, Repr

/-- `BASEURL` constant of the source. -/
def BASEURL : String := "https://api.roas.bgpkit.com/"

/-- `BASEURL.rstrip("/")`. -/
def baseNoSlash : String :=
  ⟨(BASEURL.toList.reverse.dropWhile (· == '/')).reverse⟩

/-- Normalize one row: `entry.pop('date_ranges')`, map `range_to_array`
over the ranges, put the result back.  An exception from `range_to_array`
aborts the whole handler. -/
def normalizeRow (entry : Row) : Except PyError Entry := do
  let new_ranges ← entry.date_ranges.mapM range_to_array
  .ok ⟨entry.tal, entry.pfx, entry.max_len, entry.asn, new_ranges⟩

/-- The `params` list built at lines 235-250 of the source, joined with
`"&"` after `BASEURL.rstrip("/") + "/lookup?"`. -/
def nextPageUrl (p : LookupParams) : String :=
  let params : List String := []
  let params := if p.pfx ≠ "" then params ++ ["prefix=" ++ p.pfx] else params
  let params := if p.asn ≥ 0 then params ++ ["asn=" ++ toString p.asn] else params
  let params := if p.tal ≠ "" then params ++ ["tal=" ++ p.tal] else params
  let params := if p.limit > 0 then params ++ ["limit=" ++ toString p.limit] else params
  let params := if p.date ≠ "" then params ++ ["date=" ++ p.date] else params
  let params := if p.max_len ≥ 0 then params ++ ["max_len=" ++ toString p.max_len] else params
  let params := if p.page > 0 then params ++ ["page=" ++ toString (p.page + 1)] else params
  baseNoSlash ++ "/lookup?" ++ String.intercalate "&" params

/-- Embedding of the `lookup` handler (src/main.py lines 126-260).
Returns the HTTP status code and the envelope, or the uncaught Python
exception when `range_to_array` raises.  The store is only consulted at
offset `(page - 1) * limit`. -/
def lookup (p : LookupParams) (store : Store) : Except PyError (Nat × Result) :=
  if p.page < 1 then
    .ok (400, ⟨p.limit, 0, none, none,
               some "parameters validation failed: page>=1", []⟩)
  else
    let offset := (p.page - 1) * p.limit
    match store offset with
    | .failure msg => .ok (400, ⟨p.limit, 0, none, none, some msg, []⟩)
    | .rows data => do
      let new_data ← data.mapM normalizeRow
      let length := data.length
      let new_url : Option String :=
        if (length : Int) ≥ p.limit then some (nextPageUrl p) else none
      let next_page_num : Option Int :=
        if (length : Int) ≥ p.limit ∧ p.page > 0 then some (p.page + 1) else none
      .ok (200, ⟨p.limit, length, next_page_num, new_url, none, new_data⟩)

/-- A singleton query-string field when the condition holds, nothing
otherwise; used by the spec-level URL descriptions below. -/
def fieldIf (c : Prop) [Decidable c] (s : String) : List String := if c then [s] else []

/-- The next-page URL exactly as claim C2 describes it: the non-default
filter fields supplied in the request (prefix, asn, trust-anchor, limit,
date, max_len), in that fixed order, plus `page=page+1`, and no
default-valued fields.  The defaults are `prefix=""`, `asn=-1`, `tal=""`,
`limit=100`, `date=""`, `max_len=-1`.  Written from the spec's words, to
be compared with the URL the code builds. -/
def claimNextPageUrl (p : LookupParams) : String :=
  "https://api.roas.bgpkit.com/lookup?" ++ String.intercalate "&"
    (fieldIf (p.pfx ≠ "") ("prefix=" ++ p.pfx) ++
     fieldIf (p.asn ≠ -1) ("asn=" ++ toString p.asn) ++
     fieldIf (p.tal ≠ "") ("tal=" ++ p.tal) ++
     fieldIf (p.limit ≠ 100) ("limit=" ++ toString p.limit) ++
     fieldIf (p.date ≠ "") ("date=" ++ p.date) ++
     fieldIf (p.max_len ≠ -1) ("max_len=" ++ toString p.max_len) ++
     ["page=" ++ toString (p.page + 1)])

/-- The next-page URL as claim C2 must be amended to match the code: the
`prefix`, `asn`, `tal`, `date` and `max_len` fields appear exactly when
non-default, but the `limit` field appears whenever `limit > 0` — in
particular also at its default value 100 — and never when `limit ≤ 0`. -/
def amendedNextPageUrl (p : LookupParams) : String :=
  "https://api.roas.bgpkit.com/lookup?" ++ String.intercalate "&"
    (fieldIf (p.pfx ≠ "") ("prefix=" ++ p.pfx) ++
     fieldIf (0 ≤ p.asn) ("asn=" ++ toString p.asn) ++
     fieldIf (p.tal ≠ "") ("tal=" ++ p.tal) ++
     fieldIf (0 < p.limit) ("limit=" ++ toString p.limit) ++
     fieldIf (p.date ≠ "") ("date=" ++ p.date) ++
     fieldIf (0 ≤ p.max_len) ("max_len=" ++ toString p.max_len) ++
     ["page=" ++ toString (p.page + 1)])

/-! ### Helper lemmas -/

theorem baseNoSlash_eq : baseNoSlash = "https://api.roas.bgpkit.com" := by decide

theorem nextPageUrl_eq_amended (p : LookupParams) (hp : 0 < p.page) :
    nextPageUrl p = amendedNextPageUrl p := by
  have step : ∀ (c : Prop) (inst : Decidable c) (l : List String) (s : String),
      (if c then l ++ [s] else l) = l ++ (if c then [s] else []) := by
    intro c inst l s
    by_cases h : c
    · rw [if_pos h, if_pos h]
    · rw [if_neg h, if_neg h, List.append_nil]
  have hbase : "https://api.roas.bgpkit.com" ++ "/lookup?"
      = "https://api.roas.bgpkit.com/lookup?" := by decide
  unfold nextPageUrl amendedNextPageUrl fieldIf
  rw [baseNoSlash_eq]
  simp only [step]
  have hp' : (if p.page > 0 then ["page=" ++ toString (p.page + 1)]
      else ([] : List String)) = ["page=" ++ toString (p.page + 1)] := if_pos hp
  rw [hp']
  simp only [List.nil_append, List.append_assoc, ge_iff_le, gt_iff_lt,
    ← String.append_assoc, hbase]

theorem splitOnComma_ne_nil (l : List Char) : splitOnComma l ≠ [] := by
  cases l with
  | nil => simp [splitOnComma]
  | cons c rest =>
    unfold splitOnComma
    split
    · simp
    · split <;> simp

theorem splitOnComma_of_not_mem (l : List Char) (h : ',' ∉ l) :
    splitOnComma l = [l] := by
  induction l with
  | nil => rfl
  | cons c rest ih =>
    have hc : ¬ c = ',' := fun hc => h (hc ▸ List.mem_cons_self c rest)
    have hr : ',' ∉ rest := fun hr => h (List.mem_cons_of_mem c hr)
    unfold splitOnComma
    rw [if_neg hc, ih hr]

theorem splitOnComma_append_comma (a b : List Char) (ha : ',' ∉ a) :
    splitOnComma (a ++ ',' :: b) = a :: splitOnComma b := by
  induction a with
  | nil => simp [splitOnComma]
  | cons c rest ih =>
    have hc : ¬ c = ',' := fun hc => ha (hc ▸ List.mem_cons_self c rest)
    have hr : ',' ∉ rest := fun hr => ha (List.mem_cons_of_mem c hr)
    rw [List.cons_append]
    simp only [splitOnComma]
    rw [if_neg hc, ih hr]

theorem dropWhile_eq_self_of_head (q : Char → Bool) (l : List Char)
    (h : Option.all (fun c => ! q c) l.head? = true) : l.dropWhile q = l := by
  cases l with
  | nil => rfl
  | cons c rest =>
    have : q c = false := by
      simp [Option.all] at h
      simpa using h
    simp [List.dropWhile_cons, this]

theorem mapM_ok_forall₂ {α β : Type} (f : α → Except PyError β) :
    ∀ (l : List α) (l' : List β), l.mapM f = .ok l' →
      List.Forall₂ (fun a b => f a = .ok b) l l' := by
  intro l
  induction l with
  | nil =>
    intro l' h
    rw [← List.mapM'_eq_mapM] at h
    simp only [List.mapM'] at h
    cases h
    exact List.Forall₂.nil
  | cons a as ih =>
    intro l' h
    rw [← List.mapM'_eq_mapM] at h
    simp only [List.mapM'] at h
    cases hfa : f a with
    | error e => rw [hfa] at h; simp [Bind.bind, Except.bind] at h
    | ok b =>
      rw [hfa] at h
      simp only [Bind.bind, Except.bind] at h
      cases hrest : as.mapM' f with
      | error e => rw [hrest] at h; simp [Except.bind] at h
      | ok bs =>
        rw [hrest] at h
        simp only [pure, Except.pure, Except.ok.injEq] at h
        cases h
        rw [List.mapM'_eq_mapM] at hrest
        exact List.Forall₂.cons hfa (ih bs hrest)

/-- Characterization of the handler on the row-returning success path. -/
theorem lookup_rows_ok (p : LookupParams) (store : Store) (rows : List Row)
    (nd : List Entry) (hpage : ¬ p.page < 1)
    (hrows : store ((p.page - 1) * p.limit) = .rows rows)
    (hmap : rows.mapM normalizeRow = .ok nd) :
    lookup p store = .ok (200,
      ⟨p.limit, rows.length,
       (if (rows.length : Int) ≥ p.limit ∧ p.page > 0 then some (p.page + 1) else none),
       (if (rows.length : Int) ≥ p.limit then some (nextPageUrl p) else none),
       none, nd⟩) := by
  simp only [lookup]
  rw [if_neg hpage, hrows]
  simp only [bind, Except.bind, hmap]

/-- On the row path, an exception from `range_to_array` escapes. -/
theorem lookup_rows_error (p : LookupParams) (store : Store) (rows : List Row)
    (e : PyError) (hpage : ¬ p.page < 1)
    (hrows : store ((p.page - 1) * p.limit) = .rows rows)
    (hmap : rows.mapM normalizeRow = .error e) :
    lookup p store = .error e := by
  simp only [lookup]
  rw [if_neg hpage, hrows]
  simp only [bind, Except.bind, hmap]

/-- Inversion: a produced envelope on the row path comes from a
successful normalization pass. -/
theorem lookup_rows_ok_inv (p : LookupParams) (store : Store) (rows : List Row)
    (st : Nat) (env : Result) (hpage : ¬ p.page < 1)
    (hrows : store ((p.page - 1) * p.limit) = .rows rows)
    (hok : lookup p store = .ok (st, env)) :
    ∃ nd, rows.mapM normalizeRow = .ok nd ∧ st = 200 ∧
      env = ⟨p.limit, rows.length,
       (if (rows.length : Int) ≥ p.limit ∧ p.page > 0 then some (p.page + 1) else none),
       (if (rows.length : Int) ≥ p.limit then some (nextPageUrl p) else none),
       none, nd⟩ := by
  cases hmap : rows.mapM normalizeRow with
  | error e =>
    rw [lookup_rows_error p store rows e hpage hrows hmap] at hok
    cases hok
  | ok nd =>
    rw [lookup_rows_ok p store rows nd hpage hrows hmap] at hok
    refine ⟨nd, rfl, ?_, ?_⟩
    · cases hok; rfl
    · cases hok; rfl

/-! ### Claim theorems -/

/-- Claim C1 (code_bug evaluation): the claim says an exclusive end date is
retreated by one calendar day for all calendar dates, including across
month or year boundaries.  The code's `strptime`/`strftime` format
`%Y-%M-%d` treats the month digits as minutes, so on the token
`[2021-02-09,2021-03-01)` the code produces the end date `2020-03-31`
instead of the `2021-02-28` the claim requires. -/
theorem C1_month_boundary_eval :
    range_to_array "[2021-02-09,2021-03-01)".toList
      = .ok ["2021-02-09".toList, "2020-03-31".toList] ∧
    "2020-03-31".toList ≠ "2021-02-28".toList := by
  constructor
  · decide
  · decide

/-- Claim C3 (code_bug evaluation): the claim says malformed interval
tokens fail with `MalformedIntervalError` which is converted to a
structured envelope at the HTTP boundary.  The code has no such guard:
a token without two comma-separated parts makes the tuple unpacking raise
an uncaught `ValueError` that escapes the `lookup` handler (no envelope at
all), and a token with a bad leading character is accepted silently. -/
theorem C3_malformed_eval :
    range_to_array "2021-02-09".toList = .error .valueError ∧
    range_to_array "X2021-01-01,2021-01-02]".toList
      = .ok ["X2021-01-01".toList, "2021-01-02".toList] ∧
    lookup ⟨"1.1.1.0/24", -1, "", "", -1, 100, 1⟩
      (fun _ => .rows [⟨"arin", "1.1.1.0/24", 24, 13335, ["2021-02-09".toList]⟩])
      = .error .valueError := by
  refine ⟨by decide, by decide, by decide⟩

/-- Claim C4: for the request `prefix=8.8.8.0/24`, `limit=100`, `page=1`,
when the store returns the single row
`{tal: "arin", prefix: "8.8.8.0/24", asn: 15169, max_len: 24,
date_ranges: ["[2021-02-09,2022-01-27)"]}`, the envelope has `count = 1`,
`data[0].date_ranges = [["2021-02-09", "2022-01-26"]]` and
`next_page_num = null`. -/
theorem C4_scenario :
    lookup ⟨"8.8.8.0/24", -1, "", "", -1, 100, 1⟩
      (fun _ => .rows [⟨"arin", "8.8.8.0/24", 24, 15169,
        ["[2021-02-09,2022-01-27)".toList]⟩])
      = .ok (200, ⟨100, 1, none, none, none,
          [⟨"arin", "8.8.8.0/24", 24, 15169,
            [["2021-02-09".toList, "2022-01-26".toList]]⟩]⟩) := by
  decide

/-- Claim C5: a request with `page < 1` yields HTTP 400, an empty data
sequence and a non-null error message, whatever the other parameters are,
and the result does not depend on the store collaborator at all (the store
is not dispatched). -/
theorem C5_page_validation (p : LookupParams) (store store' : Store)
    (h : p.page < 1) :
    lookup p store = .ok (400, ⟨p.limit, 0, none, none,
      some "parameters validation failed: page>=1", []⟩) ∧
    lookup p store = lookup p store' := by
  constructor
  · simp only [lookup]; rw [if_pos h]
  · simp only [lookup]; rw [if_pos h, if_pos h]

/-- Witness for C5 at `page = 0`, with two stores that disagree
everywhere. -/
theorem C5_page_validation_witness :
    lookup ⟨"1.1.1.0/24", -1, "", "", -1, 100, 0⟩ (fun _ => .rows []) =
      .ok (400, ⟨100, 0, none, none,
        some "parameters validation failed: page>=1", []⟩) ∧
    lookup ⟨"1.1.1.0/24", -1, "", "", -1, 100, 0⟩ (fun _ => .rows []) =
      lookup ⟨"1.1.1.0/24", -1, "", "", -1, 100, 0⟩ (fun _ => .failure "down") :=
  C5_page_validation _ _ _ (by decide)

/-- Claim C6: when the store's response carries a `message` field instead
of rows, the handler returns HTTP 400 with that message verbatim in the
`error` field and an empty `data` sequence. -/
theorem C6_store_error (p : LookupParams) (store : Store) (msg : String)
    (hpage : 1 ≤ p.page)
    (hs : store ((p.page - 1) * p.limit) = .failure msg) :
    lookup p store = .ok (400, ⟨p.limit, 0, none, none, some msg, []⟩) := by
  simp only [lookup]
  rw [if_neg (by omega), hs]

/-- Witness for C6 with a concrete failing store. -/
theorem C6_store_error_witness :
    lookup ⟨"", 15169, "", "", -1, 100, 1⟩ (fun _ => .failure "db timeout") =
      .ok (400, ⟨100, 0, none, none, some "db timeout", []⟩) :=
  C6_store_error _ _ _ (by decide) (by decide)

/-- Claim C7: when the store returns fewer rows than the requested limit,
the envelope advertises no next page: `next_page_num` and `next_page` are
both null. -/
theorem C7_no_next_page (p : LookupParams) (store : Store) (rows : List Row)
    (st : Nat) (env : Result)
    (hpage : 1 ≤ p.page)
    (hrows : store ((p.page - 1) * p.limit) = .rows rows)
    (hlt : (rows.length : Int) < p.limit)
    (hok : lookup p store = .ok (st, env)) :
    env.next_page_num = none ∧ env.next_page = none := by
  obtain ⟨nd, hmap, hst, henv⟩ :=
    lookup_rows_ok_inv p store rows st env (by omega) hrows hok
  subst henv
  refine ⟨?_, ?_⟩
  · show (if (rows.length : Int) ≥ p.limit ∧ p.page > 0
        then some (p.page + 1) else (none : Option Int)) = none
    exact if_neg (by omega)
  · show (if (rows.length : Int) ≥ p.limit
        then some (nextPageUrl p) else (none : Option String)) = none
    exact if_neg (by omega)

/-- Witness for C7: an empty page under the default limit. -/
theorem C7_no_next_page_witness :
    (⟨100, 0, none, none, none, []⟩ : Result).next_page_num = none ∧
    (⟨100, 0, none, none, none, []⟩ : Result).next_page = none :=
  C7_no_next_page ⟨"", -1, "", "", -1, 100, 1⟩ (fun _ => .rows []) [] 200
    ⟨100, 0, none, none, none, []⟩ (by decide) rfl (by decide) (by decide)

/-- Claim C9: for every request with `page ≥ 1`, the store is consulted
exactly at offset `(page - 1) * limit` (two stores that agree there give
identical responses), and in any produced envelope `next_page_num` is
non-null exactly when `next_page` is, with value `page + 1` whenever
non-null. -/
theorem C9_page_cursor (p : LookupParams) (store store' : Store)
    (hpage : 1 ≤ p.page)
    (hagree : store ((p.page - 1) * p.limit) = store' ((p.page - 1) * p.limit)) :
    lookup p store = lookup p store' ∧
    ∀ st env, lookup p store = .ok (st, env) →
      (env.next_page_num.isSome ↔ env.next_page.isSome) ∧
      ∀ n, env.next_page_num = some n → n = p.page + 1 := by
  have heq : lookup p store = lookup p store' := by
    simp only [lookup]
    rw [if_neg (by omega), if_neg (by omega), hagree]
  refine ⟨heq, ?_⟩
  intro st env hok
  cases hs : store ((p.page - 1) * p.limit) with
  | failure msg =>
    simp only [lookup] at hok
    rw [if_neg (by omega), hs] at hok
    rw [Except.ok.injEq, Prod.mk.injEq] at hok
    obtain ⟨hst, henv⟩ := hok
    subst henv
    refine ⟨by simp, ?_⟩
    intro n hn
    simp at hn
  | rows rows =>
    obtain ⟨nd, hmap, hst, henv⟩ :=
      lookup_rows_ok_inv p store rows st env (by omega) hs hok
    subst henv
    constructor
    · show (if (rows.length : Int) ≥ p.limit ∧ p.page > 0
          then some (p.page + 1) else (none : Option Int)).isSome
        ↔ (if (rows.length : Int) ≥ p.limit
          then some (nextPageUrl p) else (none : Option String)).isSome
      by_cases hc : (rows.length : Int) ≥ p.limit
      · rw [if_pos ⟨hc, by omega⟩, if_pos hc]; simp
      · rw [if_neg (fun hcon => hc hcon.1), if_neg hc]; simp
    · intro n hn
      replace hn : (if (rows.length : Int) ≥ p.limit ∧ p.page > 0
          then some (p.page + 1) else (none : Option Int)) = some n := hn
      by_cases hc : (rows.length : Int) ≥ p.limit ∧ p.page > 0
      · rw [if_pos hc] at hn
        exact (Option.some.inj hn).symm
      · rw [if_neg hc] at hn
        simp at hn

/-- Witness for C9: two stores that agree at offset 0 and disagree
elsewhere give the same response on a `page = 1` request. -/
theorem C9_page_cursor_witness :
    lookup ⟨"", -1, "", "", -1, 2, 1⟩
        (fun o => if o = 0 then .rows [] else .failure "x")
      = lookup ⟨"", -1, "", "", -1, 2, 1⟩ (fun _ => .rows []) :=
  (C9_page_cursor _ _ _ (by decide) (by decide)).1

/-- Claim C10: each successful envelope entry equals the corresponding
store row with only its `date_ranges` replaced by the normalized form —
`tal`, `prefix` (here `pfx`), `max_len` and `asn` unchanged, rows in store
order, the intervals of each row normalized pointwise in store order —
and `count` equals the number of rows. -/
theorem C10_frame (p : LookupParams) (store : Store) (rows : List Row)
    (st : Nat) (env : Result)
    (hpage : 1 ≤ p.page)
    (hrows : store ((p.page - 1) * p.limit) = .rows rows)
    (hok : lookup p store = .ok (st, env)) :
    env.count = rows.length ∧
    List.Forall₂ (fun (r : Row) (e : Entry) =>
      e.tal = r.tal ∧ e.pfx = r.pfx ∧ e.max_len = r.max_len ∧ e.asn = r.asn ∧
      r.date_ranges.mapM range_to_array = .ok e.date_ranges) rows env.data := by
  obtain ⟨nd, hmap, hst, henv⟩ :=
    lookup_rows_ok_inv p store rows st env (by omega) hrows hok
  subst henv
  refine ⟨rfl, ?_⟩
  have h2 := mapM_ok_forall₂ normalizeRow rows nd hmap
  show List.Forall₂ _ rows nd
  refine List.Forall₂.imp ?_ h2
  intro r e hre
  unfold normalizeRow at hre
  cases hmr : r.date_ranges.mapM range_to_array with
  | error e' =>
    rw [hmr] at hre
    simp [Bind.bind, Except.bind] at hre
  | ok nr =>
    rw [hmr] at hre
    simp only [Bind.bind, Except.bind, Except.ok.injEq] at hre
    subst hre
    exact ⟨rfl, rfl, rfl, rfl, rfl⟩

/-- Witness for C10 on a single concrete row. -/
theorem C10_frame_witness :
    (⟨100, 1, none, none, none,
      [⟨"arin", "9.9.9.0/24", 24, 19281,
        [["2021-02-09".toList, "2022-01-26".toList]]⟩]⟩ : Result).count
      = [(⟨"arin", "9.9.9.0/24", 24, 19281,
          ["[2021-02-09,2022-01-27)".toList]⟩ : Row)].length ∧
    List.Forall₂ (fun (r : Row) (e : Entry) =>
      e.tal = r.tal ∧ e.pfx = r.pfx ∧ e.max_len = r.max_len ∧ e.asn = r.asn ∧
      r.date_ranges.mapM range_to_array = .ok e.date_ranges)
      [⟨"arin", "9.9.9.0/24", 24, 19281, ["[2021-02-09,2022-01-27)".toList]⟩]
      (⟨100, 1, none, none, none,
        [⟨"arin", "9.9.9.0/24", 24, 19281,
          [["2021-02-09".toList, "2022-01-26".toList]]⟩]⟩ : Result).data :=
  C10_frame ⟨"9.9.9.0/24", -1, "", "", -1, 100, 1⟩
    (fun _ => .rows [⟨"arin", "9.9.9.0/24", 24, 19281,
      ["[2021-02-09,2022-01-27)".toList]⟩])
    [⟨"arin", "9.9.9.0/24", 24, 19281, ["[2021-02-09,2022-01-27)".toList]⟩]
    200
    ⟨100, 1, none, none, none,
      [⟨"arin", "9.9.9.0/24", 24, 19281,
        [["2021-02-09".toList, "2022-01-26".toList]]⟩]⟩
    (by decide) rfl (by decide)

/-- Counterexample to claim C2 as stated: on a request that supplies only
`prefix` and leaves `limit` at its default 100, with a full page of 100
rows, the advertised next-page URL carries the default-valued field
`limit=100`, so it is not the URL made of exactly the non-default filters
(`claimNextPageUrl`). -/
theorem C2_counterexample :
    (lookup ⟨"8.8.8.0/24", -1, "", "", -1, 100, 1⟩
        (fun _ => .rows (List.replicate 100 ⟨"arin", "8.8.8.0/24", 24, 15169, []⟩))).map
        (fun r => (r.1, r.2.next_page))
      = .ok (200, some
          "https://api.roas.bgpkit.com/lookup?prefix=8.8.8.0/24&limit=100&page=2") ∧
    claimNextPageUrl ⟨"8.8.8.0/24", -1, "", "", -1, 100, 1⟩
      = "https://api.roas.bgpkit.com/lookup?prefix=8.8.8.0/24&page=2" ∧
    "https://api.roas.bgpkit.com/lookup?prefix=8.8.8.0/24&limit=100&page=2"
      ≠ "https://api.roas.bgpkit.com/lookup?prefix=8.8.8.0/24&page=2" := by
  refine ⟨by decide, by decide, by decide⟩

/-- Claim C2 amended: when the store returns at least `limit` rows, the
next-page URL contains the non-default `prefix`, `asn`, `tal`, `date` and
`max_len` fields of the request, in that fixed order, the `limit` field
whenever `limit > 0` — including its default value 100 — plus
`page=page+1`; and `next_page_num` is `page + 1`. -/
theorem C2_next_url_amended (p : LookupParams) (store : Store) (rows : List Row)
    (st : Nat) (env : Result)
    (hpage : 1 ≤ p.page)
    (hrows : store ((p.page - 1) * p.limit) = .rows rows)
    (hlen : p.limit ≤ (rows.length : Int))
    (hok : lookup p store = .ok (st, env)) :
    env.next_page = some (amendedNextPageUrl p) ∧
    env.next_page_num = some (p.page + 1) := by
  obtain ⟨nd, hmap, hst, henv⟩ :=
    lookup_rows_ok_inv p store rows st env (by omega) hrows hok
  subst henv
  constructor
  · show (if (rows.length : Int) ≥ p.limit
        then some (nextPageUrl p) else (none : Option String))
      = some (amendedNextPageUrl p)
    rw [if_pos (by omega : (rows.length : Int) ≥ p.limit),
      nextPageUrl_eq_amended p (by omega)]
  · show (if (rows.length : Int) ≥ p.limit ∧ p.page > 0
        then some (p.page + 1) else (none : Option Int)) = some (p.page + 1)
    exact if_pos ⟨by omega, by omega⟩

/-- Witness for the amended C2 on a fully filtered page-3 request with a
full page of 2 rows. -/
theorem C2_next_url_amended_witness :
    (⟨2, 2, some (3 + 1),
      some ("https://api.roas.bgpkit.com/lookup?prefix=1.2.3.0/24&asn=13335" ++
        "&tal=ripencc&limit=2&date=2022-01-01&max_len=24&page=4"),
      none,
      [⟨"ripencc", "1.2.3.0/24", 24, 13335, []⟩,
       ⟨"ripencc", "1.2.3.0/24", 24, 13335, []⟩]⟩ : Result).next_page
      = some (amendedNextPageUrl ⟨"1.2.3.0/24", 13335, "ripencc", "2022-01-01", 24, 2, 3⟩) ∧
    (⟨2, 2, some (3 + 1),
      some ("https://api.roas.bgpkit.com/lookup?prefix=1.2.3.0/24&asn=13335" ++
        "&tal=ripencc&limit=2&date=2022-01-01&max_len=24&page=4"),
      none,
      [⟨"ripencc", "1.2.3.0/24", 24, 13335, []⟩,
       ⟨"ripencc", "1.2.3.0/24", 24, 13335, []⟩]⟩ : Result).next_page_num
      = some ((3 : Int) + 1) :=
  C2_next_url_amended ⟨"1.2.3.0/24", 13335, "ripencc", "2022-01-01", 24, 2, 3⟩
    (fun _ => .rows [⟨"ripencc", "1.2.3.0/24", 24, 13335, []⟩,
      ⟨"ripencc", "1.2.3.0/24", 24, 13335, []⟩])
    [⟨"ripencc", "1.2.3.0/24", 24, 13335, []⟩,
     ⟨"ripencc", "1.2.3.0/24", 24, 13335, []⟩]
    200
    ⟨2, 2, some (3 + 1),
      some ("https://api.roas.bgpkit.com/lookup?prefix=1.2.3.0/24&asn=13335" ++
        "&tal=ripencc&limit=2&date=2022-01-01&max_len=24&page=4"),
      none,
      [⟨"ripencc", "1.2.3.0/24", 24, 13335, []⟩,
       ⟨"ripencc", "1.2.3.0/24", 24, 13335, []⟩]⟩
    (by decide) (by decide) (by decide) (by decide)

/-- Evaluation of `range_to_array` when neither endpoint is exclusive and
stripping plus splitting yields exactly the two date fields. -/
theorem range_to_array_closed (t s e : List Char)
    (hne : t ≠ [])
    (h0 : (t.head? == some '(') = false)
    (h1 : (t.getLast? == some ')') = false)
    (hsplit : splitOnComma
        (((t.dropWhile isOpenMark).reverse.dropWhile isCloseMark).reverse)
      = [s, e]) :
    range_to_array t = .ok [s, e] := by
  unfold range_to_array
  rw [if_neg (by simp [hne])]
  dsimp only
  rw [hsplit, h0, h1]
  rfl

/-- Claim C8: a valid closed token `[start,end]` — the enclosed date
strings contain no separator and do not themselves start or end with a
marker character — is returned by the normalizer unchanged. -/
theorem C8_closed_token (start end_ : List Char)
    (hs : ',' ∉ start) (he : ',' ∉ end_)
    (hhead : Option.all (fun c => ! isOpenMark c) start.head? = true)
    (hlast : Option.all (fun c => ! isCloseMark c) end_.getLast? = true) :
    range_to_array ('[' :: (start ++ ',' :: (end_ ++ [']'])))
      = .ok [start, end_] := by
  have h0 : (('[' :: (start ++ ',' :: (end_ ++ [']']))).head? == some '(')
      = false := rfl
  have h1 : (('[' :: (start ++ ',' :: (end_ ++ [']']))).getLast? == some ')')
      = false := by
    rw [← List.cons_append]
    have : (('[' :: start) ++ ',' :: (end_ ++ [']'])) =
        (('[' :: start) ++ ',' :: end_) ++ [']'] := by
      simp [List.append_assoc]
    rw [this, List.getLast?_concat]
    rfl
  have hdrop1 : List.dropWhile isOpenMark ('[' :: (start ++ ',' :: (end_ ++ [']'])))
      = start ++ ',' :: (end_ ++ [']']) := by
    rw [List.dropWhile_cons, if_pos (show isOpenMark '[' = true from rfl)]
    apply dropWhile_eq_self_of_head
    cases start with
    | nil => rfl
    | cons c t =>
      simp only [List.cons_append, List.head?_cons]
      simpa using hhead
  have hdrop2 : ((start ++ ',' :: (end_ ++ [']'])).reverse.dropWhile isCloseMark).reverse
      = start ++ ',' :: end_ := by
    have hsh2 : start ++ ',' :: (end_ ++ [']']) = (start ++ ',' :: end_) ++ [']'] := by
      simp [List.append_assoc]
    rw [hsh2, List.reverse_concat', List.dropWhile_cons,
      if_pos (show isCloseMark ']' = true from rfl)]
    rw [dropWhile_eq_self_of_head _ _ ?hh, List.reverse_reverse]
    case hh =>
      rw [List.head?_reverse]
      cases end_ with
      | nil =>
        rw [show (start ++ [','] : List Char).getLast? = some ','
          from List.getLast?_concat _]
        rfl
      | cons c t =>
        rw [List.getLast?_append_cons, List.getLast?_cons_cons]
        simpa using hlast
  have hsplit2 : splitOnComma (start ++ ',' :: end_) = [start, end_] := by
    rw [splitOnComma_append_comma _ _ hs, splitOnComma_of_not_mem _ he]
  refine range_to_array_closed _ _ _ (by simp) h0 h1 ?_
  rw [hdrop1, hdrop2, hsplit2]

/-- Witness for C8 on a concrete closed token. -/
theorem C8_closed_token_witness :
    range_to_array ('[' :: ("2021-02-09".toList ++ ',' :: ("2022-01-27".toList ++ [']'])))
      = .ok ["2021-02-09".toList, "2022-01-27".toList] :=
  C8_closed_token _ _ (by decide) (by decide) (by decide) (by decide)

end RoasApi
